import Mathlib

/-!
Shallow embedding of the `multi-sig` signal-preprocessing pipeline
(`preprocess_task.py`): the windowing stage, the zero-phase filter cascade,
the time-domain feature extractor and the pipeline manager, together with
proofs of the behavioural properties stated in the specification.

Arrays are modelled as a shape (list of axis lengths) together with a flat
row-major data list of rationals; integer parameters of the Python code are
modelled as `Int`, and code that raises becomes `Except String`.
-/

deriving instance DecidableEq for Except

/-- Row-major data block of length `N` whose entry at flat index `k` is `f k`. -/
def mkData (N : Nat) (f : Nat → ℚ) : List ℚ := (List.range N).map f

/-- A numpy-style n-dimensional array: axis lengths plus flat row-major data. -/
structure NDArray where
  shape : List Nat
  data : List ℚ
  deriving DecidableEq

/-- Mirrors `np.squeeze` with no axis argument: every axis of length 1 is
removed from the shape; the flat data is unchanged. -/
def NDArray.squeeze (a : NDArray) : NDArray :=
  ⟨a.shape.filter (fun n => n != 1), a.data⟩

/- Error messages: each kind of runtime failure in the Python code is given a
distinct message so that error kinds can be told apart in statements. -/

def windowerDimErr : String := "Dimensions exceeded"
def broadcastErr : String := "could not broadcast"
def indexErr : String := "IndexError"
def windowerCfgErr : String := "Invalid input arguments for Windower"
def fsErr : String := "Sampling frequency needs to be a positive value"
def noFeatErr : String := "No features has been added"
def notSetupErr : String := "AttributeError"
def padlenErr : String := "The length of the input vector x must be greater than padlen"

/-- The `Windower` task's constructor state (`__init__`). -/
structure Windower where
  data_len : Int
  win_len : Int
  overlap : Int
  deriving DecidableEq

/-- Mirrors `np.arange(0, stop, step)` for a positive `step` (the only way the
code calls it: `setup`'s guard forces `step = win_len - overlap ≥ 1`). -/
def arangeTo (stop step : Int) : List Int :=
  if stop ≤ 0 then []
  else (List.range (((stop - 1) / step).toNat + 1)).map (fun (i : Nat) => (i : Int) * step)

/-- Mirrors `Windower.setup`: validates the static parameters, then stores the
window index pairs `(start, start + win_len)` for starts
`0, step, 2*step, …` up to the last start with `start + win_len ≤ data_len`. -/
def Windower.setup (w : Windower) : Except String (List (Int × Int)) :=
  if w.data_len ≤ 0 ∨ w.win_len > w.data_len ∨ w.overlap ≥ w.win_len then
    .error windowerCfgErr
  else
    .ok ((arangeTo (w.data_len - w.win_len + 1) (w.win_len - w.overlap)).map
          (fun s => (s, s + w.win_len)))

/-- Mirrors the body of `Windower.process` up to (but not including) the final
`np.squeeze`: rank > 2 raises, rank 1 is promoted to a single channel, and the
output block `windowed[ch, i, j] = data[ch, windows[i][0] + j]` is built with
shape `(num_channel, num_windows, win_len)`.  Copying a clipped slice of the
wrong length into `windowed[ch, i]` is a numpy broadcast error, modelled by the
bounds check on the stored windows. -/
def Windower.processPre (w : Windower) (ws : List (Int × Int)) (a : NDArray) :
    Except String NDArray :=
  if a.shape.length > 2 then .error windowerDimErr
  else
    let b := if a.shape.length = 1 then NDArray.mk (1 :: a.shape) a.data else a
    match b.shape with
    | [numCh, numSamp] =>
        if ws.all (fun p => decide (0 ≤ p.1 ∧ p.2 ≤ (numSamp : Int) ∧ p.2 - p.1 = w.win_len)) then
          .ok ⟨[numCh, ws.length, w.win_len.toNat],
               mkData (numCh * ws.length * w.win_len.toNat) (fun idx =>
                 let wl := w.win_len.toNat
                 let j := idx % wl
                 let r := idx / wl
                 let i := r % ws.length
                 let ch := r / ws.length
                 b.data.getD (ch * numSamp + ((ws.getD i (0, 0)).1 + (j : Int)).toNat) 0)⟩
        else .error broadcastErr
    | _ => .error indexErr

/-- Mirrors `Windower.process`: the windowed block, squeezed. -/
def Windower.process (w : Windower) (ws : List (Int × Int)) (a : NDArray) :
    Except String NDArray :=
  (w.processPre ws a).map NDArray.squeeze

/-- The `SignalFilter` task: sampling frequency and the ordered cascade of
`(b, a)` transfer-function coefficient pairs (`add_filter` appends to it). -/
structure SignalFilter where
  fs : Int
  filters : List (List ℚ × List ℚ)
  deriving DecidableEq

/-- Mirrors `SignalFilter.setup`: a non-positive sampling frequency raises; an
empty filter list only prints a warning, which is not an error. -/
def SignalFilter.setup (f : SignalFilter) : Except String Unit :=
  if f.fs ≤ 0 then .error fsErr else .ok ()

/-- Modelled from the spec: the zero-phase (forward-backward) filtering step
`scipy.signal.filtfilt(b, a, x)` used by `SignalFilter.process` is an external
collaborator whose code is not part of this repository.  The spec's contract is
kept: the sample (last) axis must be longer than the default edge-effect pad
length `3 * max (len b) (len a)`, otherwise a filtering error is raised; on
success the result has the shape of the input.  The numerical content of the
filtered samples is irrelevant to every stated property and is abstracted as
the identity on the data. -/
def filtfilt (b a : List ℚ) (x : NDArray) : Except String NDArray :=
  if x.shape.getLastD 0 ≤ 3 * max b.length a.length then .error padlenErr
  else .ok x

/-- The loop of `SignalFilter.process`: each filter's output feeds the next. -/
def applyFilters : List (List ℚ × List ℚ) → NDArray → Except String NDArray
  | [], x => .ok x
  | ba :: rest, x =>
      match filtfilt ba.1 ba.2 x with
      | .error e => .error e
      | .ok y => applyFilters rest y

/-- Mirrors `SignalFilter.process`: folds the filter cascade over the data. -/
def SignalFilter.process (f : SignalFilter) (x : NDArray) : Except String NDArray :=
  applyFilters f.filters x

/-- A feature helper function as stored in `TDExtractor.feature_methods`: an
arbitrary array-to-array function (a vectorised helper returns one value per
(channel, window); a scalar helper maps a single window to a 0-d scalar). -/
def FeatureFn : Type := NDArray → NDArray

/-- The `TDExtractor` task state: the registered feature helpers and the
parallel list of vectorised flags. -/
structure TDExtractor where
  feature_methods : List FeatureFn
  vec : List Bool

/-- Mirrors `TDExtractor.setup`: raises exactly when no features are registered. -/
def TDExtractor.setup (t : TDExtractor) : Except String Unit :=
  if t.feature_methods.isEmpty then .error noFeatErr else .ok ()

/-- A registration argument: a single function or an iterable of functions,
as accepted by `add_features` / `add_vectorised_features`. -/
def RegArg : Type := List FeatureFn ⊕ FeatureFn

/-- Mirrors `TDExtractor.add_vectorised_features`: extends both parallel lists,
tagging every added method `True`. -/
def TDExtractor.add_vectorised_features (t : TDExtractor) (arg : RegArg) : TDExtractor :=
  match arg with
  | .inl ms => ⟨t.feature_methods ++ ms, t.vec ++ List.replicate ms.length true⟩
  | .inr m => ⟨t.feature_methods ++ [m], t.vec ++ [true]⟩

/-- Mirrors `TDExtractor.add_features`: extends both parallel lists, tagging
every added method `False`. -/
def TDExtractor.add_features (t : TDExtractor) (arg : RegArg) : TDExtractor :=
  match arg with
  | .inl ms => ⟨t.feature_methods ++ ms, t.vec ++ List.replicate ms.length false⟩
  | .inr m => ⟨t.feature_methods ++ [m], t.vec ++ [false]⟩

/-- The scalar calling convention: a feature helper applied by
`np.apply_along_axis` to one window's 1-d sample sequence, read back as the
scalar it returns. -/
def scalarCall (m : FeatureFn) (wdata : List ℚ) : ℚ :=
  (m ⟨[wdata.length], wdata⟩).data.getD 0 0

/-- The 1-d sample sequence of window `(ch, wI)` of a rank-3 array `b` whose
second axis has length `d1`. -/
def windowOf (b : NDArray) (d1 ch wI : Nat) : List ℚ :=
  let L := b.shape.getLastD 1
  mkData L (fun k => b.data.getD ((ch * d1 + wI) * L + k) 0)

/-- One vectorised feature's slice `res[:, :, i] = method(data)`: a single
whole-array call, accepted when its result has exactly the slice's shape
`(d0, d1)` (otherwise numpy's assignment raises a broadcast error). -/
def vecSlice (b : NDArray) (d0 d1 : Nat) (m : FeatureFn) : Except String (List ℚ) :=
  let r := m b
  if r.shape = [d0, d1] then .ok r.data else .error broadcastErr

/-- One scalar feature's slice
`res[:, :, i] = np.apply_along_axis(method, -1, data)`: one call per
(channel, window) pair.  `apply_along_axis` yields an array shaped like `b`
minus its last axis, so the assignment succeeds exactly when `b` has rank 3. -/
def scalSlice (b : NDArray) (d0 d1 : Nat) (m : FeatureFn) : Except String (List ℚ) :=
  if b.shape.length = 3 then
    .ok (mkData (d0 * d1) (fun j => scalarCall m (windowOf b d1 (j / d1) (j % d1))))
  else .error broadcastErr

/-- Mirrors the dispatch `if self.vec[i]: … else: …` in `TDExtractor.process`. -/
def featureSlice (b : NDArray) (d0 d1 : Nat) (m : FeatureFn) (v : Bool) :
    Except String (List ℚ) :=
  if v then vecSlice b d0 d1 m else scalSlice b d0 d1 m

/-- The feature loop of `TDExtractor.process`: computes every feature's slice
in registration order, stopping at the first failure. -/
def collectSlices (b : NDArray) (d0 d1 : Nat) :
    List (FeatureFn × Bool) → Except String (List (List ℚ))
  | [] => .ok []
  | p :: ps =>
      match featureSlice b d0 d1 p.1 p.2 with
      | .error e => .error e
      | .ok s => (collectSlices b d0 d1 ps).map (fun rest => s :: rest)

/-- Mirrors the body of `TDExtractor.process` up to (but not including) the
final `np.squeeze`: rank-2 input is promoted to a single channel, the result
block has shape `(d0, d1, num_features)` with `res[ch, wI, i]` read from
feature `i`'s slice, and reading `data.shape[1]` off an array of rank < 2 is an
index error.  Indexing `self.vec[i]` past its end (the two parallel lists can
only differ if `vec` is shorter) is likewise an index error. -/
def TDExtractor.processPre (t : TDExtractor) (a : NDArray) : Except String NDArray :=
  let b := if a.shape.length = 2 then NDArray.mk (1 :: a.shape) a.data else a
  match b.shape with
  | d0 :: d1 :: _ =>
      if t.vec.length < t.feature_methods.length then .error indexErr
      else
        match collectSlices b d0 d1 (t.feature_methods.zip t.vec) with
        | .error e => .error e
        | .ok slices =>
            .ok ⟨[d0, d1, t.feature_methods.length],
                 mkData (d0 * d1 * t.feature_methods.length) (fun idx =>
                   let n := t.feature_methods.length
                   (slices.getD (idx % n) []).getD (idx / n) 0)⟩
  | _ => .error indexErr

/-- Mirrors `TDExtractor.process`: the feature block, squeezed. -/
def TDExtractor.process (t : TDExtractor) (a : NDArray) : Except String NDArray :=
  (t.processPre a).map NDArray.squeeze

/-- Mirrors `np.mean(·, axis=-1)` on arrays of rank ≥ 1 (the vectorised mean
feature): drops the last axis, averaging over it. -/
def npMeanLast (a : NDArray) : NDArray :=
  let L := a.shape.getLastD 1
  ⟨a.shape.dropLast,
   mkData a.shape.dropLast.prod (fun j =>
     (mkData L (fun k => a.data.getD (j * L + k) 0)).sum / (L : ℚ))⟩

/-- Mirrors `np.mean` of a whole array (the scalar mean feature applied to one
window): a 0-d scalar, the sum of all entries over the total size. -/
def npMeanAll (a : NDArray) : NDArray :=
  ⟨[], [(mkData a.shape.prod (fun k => a.data.getD k 0)).sum / (a.shape.prod : ℚ)]⟩

/-- An extractor holding exactly one vectorised mean feature. -/
def tdMean1 : TDExtractor := ⟨[npMeanLast], [true]⟩

/-- An extractor holding one vectorised mean feature and one scalar mean
feature. -/
def tdMeanPair : TDExtractor := ⟨[npMeanLast, npMeanAll], [true, false]⟩

/-- A pipeline task: one of the three concrete `PreprocessTask` stages.  The
windower carries `self.windows`, the state written by its `setup`
(`none` models the initial `self.windows = None`). -/
inductive PTask where
  | windower (w : Windower) (windows : Option (List (Int × Int)))
  | sigFilter (f : SignalFilter)
  | extractor (t : TDExtractor)

/-- Mirrors each stage's `setup`, returning the task with its derived state. -/
def PTask.setup : PTask → Except String PTask
  | .windower w _ => (w.setup).map (fun ws => .windower w (some ws))
  | .sigFilter f => (f.setup).map (fun _ => .sigFilter f)
  | .extractor t => (t.setup).map (fun _ => .extractor t)

/-- Mirrors each stage's `process`; a windower whose `setup` never ran has
`self.windows = None` and fails on attribute access. -/
def PTask.process : PTask → NDArray → Except String NDArray
  | .windower _ none, _ => .error notSetupErr
  | .windower w (some ws), a => w.process ws a
  | .sigFilter f, a => f.process a
  | .extractor t, a => t.process a

/-- Mirrors `SignalPreprocessor.setup_tasks`: runs every task's `setup` in
registration order; the first failure propagates at once. -/
def SignalPreprocessor.setup_tasks : List PTask → Except String (List PTask)
  | [] => .ok []
  | t :: ts =>
      match t.setup with
      | .error e => .error e
      | .ok t' => (SignalPreprocessor.setup_tasks ts).map (fun ts' => t' :: ts')

/-- Mirrors `SignalPreprocessor.process_tasks`: threads the data through every
task's `process` in registration order. -/
def SignalPreprocessor.process_tasks : List PTask → NDArray → Except String NDArray
  | [], a => .ok a
  | t :: ts, a =>
      match t.process a with
      | .error e => .error e
      | .ok r => SignalPreprocessor.process_tasks ts r

/-- A single registration call: the vectorised tag (true for
`add_vectorised_features`, false for `add_features`) and its argument. -/
def RegCall : Type := Bool × RegArg

/-- The feature methods a call registers, in order. -/
def RegCall.methods : RegCall → List FeatureFn
  | (_, .inl ms) => ms
  | (_, .inr m) => [m]

/-- The vectorised flags a call appends: its tag, once per registered method. -/
def RegCall.flags : RegCall → List Bool
  | (v, .inl ms) => List.replicate ms.length v
  | (v, .inr _) => [v]

/-- Replays an arbitrary sequence of `add_features` /
`add_vectorised_features` calls on an extractor. -/
def applyCalls : TDExtractor → List RegCall → TDExtractor
  | t, [] => t
  | t, c :: cs =>
      applyCalls (if c.1 then t.add_vectorised_features c.2 else t.add_features c.2) cs


/-! ### Windower setup characterization -/

/-- On valid parameters, `Windower.setup` succeeds and returns the window pairs
`(i * step, i * step + win_len)` for `i = 0, …, (data_len - win_len) / step`. -/
theorem Windower.setup_ok_eq (d wl o : Int) (h0 : 0 < d) (h2 : o < wl) (h3 : wl ≤ d) :
    Windower.setup ⟨d, wl, o⟩ =
      .ok ((List.range (((d - wl) / (wl - o)).toNat + 1)).map
        (fun (i : Nat) => ((i : Int) * (wl - o), (i : Int) * (wl - o) + wl))) := by
  have hguard : ¬(d ≤ 0 ∨ wl > d ∨ o ≥ wl) := by push_neg; exact ⟨h0, h3, h2⟩
  have hstop : ¬(d - wl + 1 ≤ 0) := by omega
  unfold Windower.setup arangeTo
  rw [if_neg hguard, if_neg hstop]
  have harg : d - wl + 1 - 1 = d - wl := by ring
  rw [harg, List.map_map]
  rfl

/-- Every window pair returned by a valid `setup` starts at an offset ≥ 0 and
ends at `start + win_len ≤ data_len`. -/
theorem Windower.setup_mem_bounds (d wl o : Int) (h0 : 0 < d) (h2 : o < wl) (h3 : wl ≤ d)
    (ws : List (Int × Int)) (hws : Windower.setup ⟨d, wl, o⟩ = .ok ws) :
    ∀ p ∈ ws, 0 ≤ p.1 ∧ p.2 ≤ d ∧ p.2 - p.1 = wl := by
  rw [Windower.setup_ok_eq d wl o h0 h2 h3] at hws
  injection hws with hws
  subst hws
  intro p hp
  obtain ⟨i, hi, rfl⟩ := List.mem_map.mp hp
  have hilt : i < ((d - wl) / (wl - o)).toNat + 1 := List.mem_range.mp hi
  have hstep : (0 : Int) < wl - o := by omega
  have hN : (0 : Int) ≤ d - wl := by omega
  have htn : (((d - wl) / (wl - o)).toNat : Int) = (d - wl) / (wl - o) :=
    Int.toNat_of_nonneg (Int.ediv_nonneg hN (le_of_lt hstep))
  have hidiv : (i : Int) ≤ (d - wl) / (wl - o) := by
    have h1 : (i : Int) ≤ (((d - wl) / (wl - o)).toNat : Int) := by
      exact_mod_cast Nat.lt_succ_iff.mp hilt
    omega
  have hmul : (i : Int) * (wl - o) ≤ d - wl :=
    (Int.le_ediv_iff_mul_le hstep).mp hidiv
  refine ⟨?_, ?_, by ring⟩
  · show (0 : Int) ≤ (i : Int) * (wl - o)
    positivity
  · show (i : Int) * (wl - o) + wl ≤ d
    linarith

/-- C1: for valid parameters with positive overlap, `Windower.setup` stores
exactly `floor((data_len - win_len) / (win_len - overlap)) + 1` window pairs;
every pair ends exactly `win_len` after its start, the first start is 0, and
each successive start exceeds the previous one by `win_len - overlap`. -/
theorem C1_windower_setup (d wl o : Int) (h1 : 0 < o) (h2 : o < wl) (h3 : wl ≤ d) :
    ∃ ws : List (Int × Int),
      Windower.setup ⟨d, wl, o⟩ = .ok ws ∧
      ws.length = ((d - wl) / (wl - o)).toNat + 1 ∧
      (∀ p ∈ ws, p.2 = p.1 + wl) ∧
      ws.head? = some (0, wl) ∧
      (∀ i p q, ws[i]? = some p → ws[i + 1]? = some q → q.1 = p.1 + (wl - o)) := by
  have h0 : 0 < d := by omega
  refine ⟨_, Windower.setup_ok_eq d wl o h0 h2 h3, ?_, ?_, ?_, ?_⟩
  · simp
  · intro p hp
    obtain ⟨i, _, rfl⟩ := List.mem_map.mp hp
    rfl
  · rw [List.range_succ_eq_map]
    simp
  · intro i p q hp hq
    rw [List.getElem?_map] at hp hq
    rcases hi : (List.range (((d - wl) / (wl - o)).toNat + 1))[i]? with _ | v
    · rw [hi] at hp; exact absurd hp (by simp)
    · rcases hj : (List.range (((d - wl) / (wl - o)).toNat + 1))[i + 1]? with _ | v'
      · rw [hj] at hq; exact absurd hq (by simp)
      · have hvi : v = i := by
          have := List.getElem?_range' (n := ((d - wl) / (wl - o)).toNat + 1) (m := i)
          rcases Nat.lt_or_ge i (((d - wl) / (wl - o)).toNat + 1) with hlt | hge
          · simp [List.getElem?_range, hlt] at hi; omega
          · rw [List.getElem?_eq_none (by simpa using hge)] at hi; cases hi
        have hvj : v' = i + 1 := by
          rcases Nat.lt_or_ge (i + 1) (((d - wl) / (wl - o)).toNat + 1) with hlt | hge
          · simp [List.getElem?_range, hlt] at hj; omega
          · rw [List.getElem?_eq_none (by simpa using hge)] at hj; cases hj
        rw [hi] at hp
        rw [hj] at hq
        injection hp with hp
        injection hq with hq
        subst hvi hvj
        rw [← hp, ← hq]
        push_cast
        ring

/-- C1 witness at `(data_len, win_len, overlap) = (100, 50, 40)`: six windows,
first pair `(0, 50)`, step 10 (the spec's own worked example). -/
theorem C1_windower_setup_witness :
    ∃ ws : List (Int × Int),
      Windower.setup ⟨100, 50, 40⟩ = .ok ws ∧
      ws.length = ((100 - 50 : Int) / (50 - 40)).toNat + 1 ∧
      (∀ p ∈ ws, p.2 = p.1 + 50) ∧
      ws.head? = some (0, 50) ∧
      (∀ i p q, ws[i]? = some p → ws[i + 1]? = some q → q.1 = p.1 + (50 - 40)) :=
  C1_windower_setup 100 50 40 (by norm_num) (by norm_num) (by norm_num)

/-! ### Setup validation (C5), pipeline sequencing (C6, C8) -/

/-- C5: each stage's `setup` raises exactly on its invalid static parameters:
the windower iff `data_len ≤ 0` or `win_len > data_len` or
`overlap ≥ win_len`; the filter iff `fs ≤ 0` (an empty cascade is only a
printed warning); the extractor iff no feature was registered. -/
theorem C5_setup_validation :
    (∀ d wl o : Int,
       (∃ e, Windower.setup ⟨d, wl, o⟩ = .error e) ↔ (d ≤ 0 ∨ wl > d ∨ o ≥ wl)) ∧
    (∀ (fs : Int) (fls : List (List ℚ × List ℚ)),
       (∃ e, SignalFilter.setup ⟨fs, fls⟩ = .error e) ↔ fs ≤ 0) ∧
    (∀ t : TDExtractor, (∃ e, t.setup = .error e) ↔ t.feature_methods = []) := by
  refine ⟨?_, ?_, ?_⟩
  · intro d wl o
    by_cases h : d ≤ 0 ∨ wl > d ∨ o ≥ wl
    · simp [Windower.setup, h]
    · simp [Windower.setup, h]
  · intro fs fls
    by_cases h : fs ≤ 0
    · simp [SignalFilter.setup, h]
    · simp [SignalFilter.setup, h]
  · intro t
    rcases hm : t.feature_methods with _ | ⟨m, ms⟩
    · simp [TDExtractor.setup, hm]
    · simp [TDExtractor.setup, hm]

/-- C6: `process_tasks` is the left-to-right fold of the tasks' `process`
functions over the input — each task's output is the next task's sole input in
registration order — and a pipeline with zero tasks returns its input
unchanged. -/
theorem C6_process_tasks_is_fold :
    (∀ a, SignalPreprocessor.process_tasks [] a = .ok a) ∧
    (∀ ts a, SignalPreprocessor.process_tasks ts a =
        ts.foldlM (fun r t => PTask.process t r) a) := by
  constructor
  · intro a; rfl
  · intro ts
    induction ts with
    | nil => intro a; rfl
    | cons t ts ih =>
        intro a
        rw [SignalPreprocessor.process_tasks, List.foldlM_cons]
        cases h : t.process a with
        | error e => rfl
        | ok r => exact ih r

/-- C8 counterexample to "the pipeline cannot be used for processing until
every task's setup has succeeded": a pipeline holding one filter task with an
invalid sampling frequency fails `setup_tasks`, yet `process_tasks` still runs
and returns the data (nothing in the code guards processing on setup). -/
theorem C8_counterexample :
    SignalPreprocessor.setup_tasks [PTask.sigFilter ⟨-1, []⟩] = .error fsErr ∧
    SignalPreprocessor.process_tasks [PTask.sigFilter ⟨-1, []⟩] ⟨[2], [1, 2]⟩ =
      .ok ⟨[2], [1, 2]⟩ :=
  ⟨rfl, rfl⟩

/-- C8 (amended): `setup_tasks` invokes `setup` on every registered task in
registration order — on success the returned tasks are exactly the per-task
`setup` results, and if some task's `setup` raises after every earlier task
succeeded, the error propagates immediately whatever tasks follow. (The code
does not itself make the pipeline unusable for processing after a failed
setup; only a task needing setup-derived state fails at process time.) -/
theorem C8_setup_tasks_order :
    (∀ ts ts', SignalPreprocessor.setup_tasks ts = .ok ts' →
        List.Forall₂ (fun t t' => PTask.setup t = .ok t') ts ts') ∧
    (∀ pre t suf e, (∀ p ∈ pre, ∃ p', PTask.setup p = .ok p') →
        PTask.setup t = .error e →
        SignalPreprocessor.setup_tasks (pre ++ t :: suf) = .error e) := by
  constructor
  · intro ts
    induction ts with
    | nil =>
        intro ts' h
        rw [SignalPreprocessor.setup_tasks] at h
        injection h with h
        subst h
        exact List.Forall₂.nil
    | cons hd tl ih =>
        intro ts' h
        rw [SignalPreprocessor.setup_tasks] at h
        cases hh : hd.setup with
        | error e => rw [hh] at h; cases h
        | ok hd' =>
            rw [hh] at h
            cases hr : SignalPreprocessor.setup_tasks tl with
            | error e => rw [hr] at h; cases h
            | ok tl' =>
                rw [hr] at h
                injection h with h
                subst h
                exact List.Forall₂.cons hh (ih tl' hr)
  · intro pre
    induction pre with
    | nil =>
        intro t suf e _ ht
        rw [List.nil_append, SignalPreprocessor.setup_tasks, ht]
    | cons hd tl ih =>
        intro t suf e hpre ht
        obtain ⟨hd', hhd⟩ := hpre hd (List.mem_cons_self hd tl)
        rw [List.cons_append, SignalPreprocessor.setup_tasks, hhd,
          ih t suf e (fun p hp => hpre p (List.mem_cons_of_mem hd hp)) ht]
        rfl

/-- C8 witness: a three-task pipeline whose middle task (filter with `fs = -1`)
fails setup aborts `setup_tasks` with that task's error. -/
theorem C8_setup_tasks_order_witness :
    SignalPreprocessor.setup_tasks
        ([PTask.extractor tdMean1] ++ PTask.sigFilter ⟨-1, []⟩ :: [PTask.extractor tdMean1]) =
      .error fsErr := by
  apply C8_setup_tasks_order.2
  · intro p hp
    rw [List.mem_singleton] at hp
    subst hp
    exact ⟨_, rfl⟩
  · rfl

/-! ### Process-stage shape lemmas -/

/-- On a rank-2 input whose sample count covers every stored window,
`Windower.processPre` succeeds with the unsqueezed shape
`(channels, number of windows, win_len)`. -/
theorem Windower.processPre_ok (w : Windower) (ws : List (Int × Int)) (a : NDArray)
    (c s : Nat) (ha : a.shape = [c, s])
    (hb : ∀ p ∈ ws, 0 ≤ p.1 ∧ p.2 ≤ (s : Int) ∧ p.2 - p.1 = w.win_len) :
    ∃ r, w.processPre ws a = .ok r ∧ r.shape = [c, ws.length, w.win_len.toNat] := by
  have hall : ws.all
      (fun p => decide (0 ≤ p.1 ∧ p.2 ≤ ((s : Nat) : Int) ∧ p.2 - p.1 = w.win_len)) = true := by
    rw [List.all_eq_true]
    intro p hp
    exact decide_eq_true (hb p hp)
  obtain ⟨sh, dl⟩ := a
  have ha' : sh = [c, s] := ha
  subst ha'
  simp only [Windower.processPre, List.length_cons, List.length_nil]
  norm_num
  rw [if_pos hall]
  exact ⟨_, rfl, rfl⟩

/-- On a rank-3 input, the one-vectorised-mean extractor's `processPre`
succeeds with the unsqueezed shape `(channels, windows, 1)`. -/
theorem tdMean1_processPre_ok3 (a : NDArray) (c wN L : Nat) (ha : a.shape = [c, wN, L]) :
    ∃ r, tdMean1.processPre a = .ok r ∧ r.shape = [c, wN, 1] := by
  obtain ⟨sh, dl⟩ := a
  have ha' : sh = [c, wN, L] := ha
  subst ha'
  simp only [TDExtractor.processPre, tdMean1, collectSlices, featureSlice, vecSlice,
    npMeanLast, List.zip_cons_cons, List.zip_nil_right]
  norm_num
  exact ⟨_, rfl, rfl⟩

/-- C2: an (8, 5000) array windowed with `win_len = 50`, `overlap = 40` and fed
through a one-vectorised-mean extractor gives a feature block of shape
(8, 496, 1) before the final squeeze and (8, 496) after it, where
`496 = floor((5000 - 50) / 10) + 1`. -/
theorem C2_end_to_end_shapes (a : NDArray) (ha : a.shape = [8, 5000]) :
    ∃ ws p q,
      Windower.setup ⟨5000, 50, 40⟩ = .ok ws ∧
      ws.length = 496 ∧
      Windower.process ⟨5000, 50, 40⟩ ws a = .ok p ∧
      p.shape = [8, 496, 50] ∧
      tdMean1.processPre p = .ok q ∧
      q.shape = [8, 496, 1] ∧
      tdMean1.process p = .ok q.squeeze ∧
      q.squeeze.shape = [8, 496] ∧
      (496 : Int) = (5000 - 50) / (50 - 40) + 1 := by
  have h0 : (0 : Int) < 5000 := by norm_num
  have h2 : (40 : Int) < 50 := by norm_num
  have h3 : (50 : Int) ≤ 5000 := by norm_num
  have hset0 := Windower.setup_ok_eq 5000 50 40 h0 h2 h3
  obtain ⟨ws, hset, hlen⟩ :
      ∃ ws, Windower.setup ⟨5000, 50, 40⟩ = .ok ws ∧ ws.length = 496 :=
    ⟨_, hset0, by rw [List.length_map, List.length_range]; decide⟩
  have hb := Windower.setup_mem_bounds 5000 50 40 h0 h2 h3 ws hset
  obtain ⟨r, hr, hrshape⟩ :=
    Windower.processPre_ok ⟨5000, 50, 40⟩ ws a 8 5000 ha hb
  have hrs : r.shape = [8, 496, 50] := by rw [hrshape, hlen]; decide
  have hproc : Windower.process ⟨5000, 50, 40⟩ ws a = .ok r.squeeze := by
    rw [Windower.process, hr]; rfl
  have hsq : r.squeeze.shape = [8, 496, 50] := by
    rw [NDArray.squeeze]
    rw [hrs]
    rfl
  obtain ⟨q, hq, hqshape⟩ := tdMean1_processPre_ok3 r.squeeze 8 496 50 hsq
  have hqproc : tdMean1.process r.squeeze = .ok q.squeeze := by
    rw [TDExtractor.process, hq]; rfl
  have hqsq : q.squeeze.shape = [8, 496] := by
    rw [NDArray.squeeze, hqshape]
    rfl
  exact ⟨ws, r.squeeze, q, hset, hlen, hproc, hsq, hq, hqshape, hqproc, hqsq, by decide⟩

/-- C2 witness: the concrete (shape-carrying) input of shape (8, 5000). -/
theorem C2_end_to_end_shapes_witness :
    ∃ ws p q,
      Windower.setup ⟨5000, 50, 40⟩ = .ok ws ∧
      ws.length = 496 ∧
      Windower.process ⟨5000, 50, 40⟩ ws ⟨[8, 5000], []⟩ = .ok p ∧
      p.shape = [8, 496, 50] ∧
      tdMean1.processPre p = .ok q ∧
      q.shape = [8, 496, 1] ∧
      tdMean1.process p = .ok q.squeeze ∧
      q.squeeze.shape = [8, 496] ∧
      (496 : Int) = (5000 - 50) / (50 - 40) + 1 :=
  C2_end_to_end_shapes ⟨[8, 5000], []⟩ rfl

/-- On a rank-2 input (promoted to one implicit channel), the
one-vectorised-mean extractor's `processPre` succeeds with unsqueezed shape
`(1, rows, 1)`. -/
theorem tdMean1_processPre_ok2 (a : NDArray) (x y : Nat) (ha : a.shape = [x, y]) :
    ∃ r, tdMean1.processPre a = .ok r ∧ r.shape = [1, x, 1] := by
  obtain ⟨sh, dl⟩ := a
  have ha' : sh = [x, y] := ha
  subst ha'
  simp only [TDExtractor.processPre, tdMean1, collectSlices, featureSlice, vecSlice,
    npMeanLast, List.zip_cons_cons, List.zip_nil_right]
  norm_num
  exact ⟨_, rfl, rfl⟩

/-- C3: both stages squeeze their full result — the returned array is the
pre-squeeze block with every axis of length 1 removed from its shape, whatever
combination of axes is degenerate.  Concretely: a (1, 496, 50) input through
the one-feature extractor — pre-squeeze block (1, 496, 1) — comes out with
shape (496,); an (8, 1, 50) input comes out with shape (8,); and a
single-channel (1, 100) input through a 6-window windower comes out with shape
(6, 50), its channel axis dropped. -/
theorem C3_squeeze_all_unit_axes :
    (∀ (w : Windower) (ws : List (Int × Int)) (a p : NDArray),
        w.processPre ws a = .ok p →
        w.process ws a = .ok ⟨p.shape.filter (fun n => n != 1), p.data⟩) ∧
    (∀ (t : TDExtractor) (a p : NDArray),
        t.processPre a = .ok p →
        t.process a = .ok ⟨p.shape.filter (fun n => n != 1), p.data⟩) ∧
    (∀ a : NDArray, a.shape = [1, 496, 50] →
        ∃ r, tdMean1.process a = .ok r ∧ r.shape = [496]) ∧
    (∀ a : NDArray, a.shape = [8, 1, 50] →
        ∃ r, tdMean1.process a = .ok r ∧ r.shape = [8]) ∧
    (∀ a : NDArray, a.shape = [1, 100] →
        ∃ ws r, Windower.setup ⟨100, 50, 40⟩ = .ok ws ∧
          Windower.process ⟨100, 50, 40⟩ ws a = .ok r ∧ r.shape = [6, 50]) := by
  refine ⟨?_, ?_, ?_, ?_, ?_⟩
  · intro w ws a p h
    rw [Windower.process, h]
    rfl
  · intro t a p h
    rw [TDExtractor.process, h]
    rfl
  · intro a ha
    obtain ⟨q, hq, hqshape⟩ := tdMean1_processPre_ok3 a 1 496 50 ha
    refine ⟨q.squeeze, by rw [TDExtractor.process, hq]; rfl, ?_⟩
    rw [NDArray.squeeze, hqshape]
    rfl
  · intro a ha
    obtain ⟨q, hq, hqshape⟩ := tdMean1_processPre_ok3 a 8 1 50 ha
    refine ⟨q.squeeze, by rw [TDExtractor.process, hq]; rfl, ?_⟩
    rw [NDArray.squeeze, hqshape]
    rfl
  · intro a ha
    have h0 : (0 : Int) < 100 := by norm_num
    have h2 : (40 : Int) < 50 := by norm_num
    have h3 : (50 : Int) ≤ 100 := by norm_num
    have hset0 := Windower.setup_ok_eq 100 50 40 h0 h2 h3
    obtain ⟨ws, hset, hlen⟩ :
        ∃ ws, Windower.setup ⟨100, 50, 40⟩ = .ok ws ∧ ws.length = 6 :=
      ⟨_, hset0, by rw [List.length_map, List.length_range]; decide⟩
    have hb := Windower.setup_mem_bounds 100 50 40 h0 h2 h3 ws hset
    obtain ⟨r, hr, hrshape⟩ :=
      Windower.processPre_ok ⟨100, 50, 40⟩ ws a 1 100 ha hb
    have hrs : r.shape = [1, 6, 50] := by rw [hrshape, hlen]; decide
    refine ⟨ws, r.squeeze, hset, by rw [Windower.process, hr]; rfl, ?_⟩
    rw [NDArray.squeeze, hrs]
    rfl

/-- C3 witness: the three concrete size-1-axis combinations. -/
theorem C3_squeeze_all_unit_axes_witness :
    (∃ r, tdMean1.process ⟨[1, 496, 50], []⟩ = .ok r ∧ r.shape = [496]) ∧
    (∃ r, tdMean1.process ⟨[8, 1, 50], []⟩ = .ok r ∧ r.shape = [8]) ∧
    (∃ ws r, Windower.setup ⟨100, 50, 40⟩ = .ok ws ∧
        Windower.process ⟨100, 50, 40⟩ ws ⟨[1, 100], []⟩ = .ok r ∧ r.shape = [6, 50]) :=
  ⟨C3_squeeze_all_unit_axes.2.2.1 ⟨[1, 496, 50], []⟩ rfl,
   C3_squeeze_all_unit_axes.2.2.2.1 ⟨[8, 1, 50], []⟩ rfl,
   C3_squeeze_all_unit_axes.2.2.2.2 ⟨[1, 100], []⟩ rfl⟩

/-- Mapping over an `Except` neither creates nor changes an error. -/
theorem exceptMap_error_iff {α β : Type} (f : α → β) (x : Except String α) (e : String) :
    x.map f = .error e ↔ x = .error e := by
  cases x <;> simp [Except.map]

/-- The only `Windower.processPre` outcome carrying the dimension-error message
is the rank check itself: it fires exactly on inputs of rank > 2. -/
theorem Windower.processPre_dimErr_iff (w : Windower) (ws : List (Int × Int)) (a : NDArray) :
    w.processPre ws a = .error windowerDimErr ↔ a.shape.length > 2 := by
  have hbd : ¬(broadcastErr = windowerDimErr) := by decide
  have hid : ¬(indexErr = windowerDimErr) := by decide
  unfold Windower.processPre
  by_cases h : a.shape.length > 2
  · simp [h]
  · simp only [if_neg h]
    split
    · split
      · simp [h]
      · simp [hbd, h]
    · simp [hid, h]

/-- On rank > 3 input, the mean extractor's feature slice (rank ≥ 3 result of
the vectorised mean) cannot be assigned into the rank-2 slice `res[:, :, i]`,
so `processPre` fails with the broadcast error. -/
theorem tdMean1_processPre_rank4_err (a : NDArray) (h : a.shape.length > 3) :
    tdMean1.processPre a = .error broadcastErr := by
  obtain ⟨sh, dl⟩ := a
  rcases sh with _ | ⟨s0, _ | ⟨s1, _ | ⟨s2, _ | ⟨s3, tl⟩⟩⟩⟩
  · simp at h
  · simp at h
  · simp at h
  · simp at h
  · have hne : (s0 :: s1 :: s2 :: s3 :: tl).dropLast ≠ [s0, s1] := by
      intro hEq
      have hlen := congrArg List.length hEq
      simp [List.length_dropLast] at hlen
    simp only [TDExtractor.processPre, tdMean1, collectSlices, featureSlice, vecSlice,
      npMeanLast]
    simp [hne]

/-- C4 counterexample: the claim "for every input of rank > 2 the
feature-extraction stage's process raises a dimension error" is false on the
code — a rank-3 input (the extractor's ordinary windowed input) is processed
without any error: on the (1, 1, 1) zero array the mean extractor returns an
array (of squeezed shape `()`). -/
theorem C4_counterexample :
    (NDArray.mk [1, 1, 1] [0]).shape.length > 2 ∧
    (tdMean1.process ⟨[1, 1, 1], [0]⟩).map NDArray.shape = .ok [] :=
  ⟨by decide, rfl⟩

/-- C4 (amended): the windowing stage's process raises its dimension error for
every input of rank > 2 and never for rank 1 or 2; the feature-extraction
stage has no rank check — with the mean feature registered it raises no error
on rank-2 or rank-3 input and fails on rank > 3 only through the feature-slice
assignment (a broadcast error, not a dimension check). -/
theorem C4_rank_behaviour :
    (∀ (w : Windower) (ws : List (Int × Int)) (a : NDArray), a.shape.length > 2 →
        w.process ws a = .error windowerDimErr) ∧
    (∀ (w : Windower) (ws : List (Int × Int)) (a : NDArray),
        a.shape.length = 1 ∨ a.shape.length = 2 →
        w.process ws a ≠ .error windowerDimErr) ∧
    (∀ a : NDArray, a.shape.length = 2 ∨ a.shape.length = 3 →
        ∃ r, tdMean1.process a = .ok r) ∧
    (∀ a : NDArray, a.shape.length > 3 →
        tdMean1.process a = .error broadcastErr) := by
  refine ⟨?_, ?_, ?_, ?_⟩
  · intro w ws a h
    rw [Windower.process, Windower.processPre, if_pos h]
    rfl
  · intro w ws a h hc
    rw [Windower.process, exceptMap_error_iff, Windower.processPre_dimErr_iff] at hc
    omega
  · intro a h
    rcases h with h2 | h3
    · obtain ⟨x, y, hxy⟩ : ∃ x y, a.shape = [x, y] := by
        rcases hs : a.shape with _ | ⟨x, _ | ⟨y, _ | _⟩⟩ <;> rw [hs] at h2 <;> simp at h2
        exact ⟨x, y, rfl⟩
      obtain ⟨r, hr, _⟩ := tdMean1_processPre_ok2 a x y hxy
      exact ⟨r.squeeze, by rw [TDExtractor.process, hr]; rfl⟩
    · obtain ⟨x, y, z, hxyz⟩ : ∃ x y z, a.shape = [x, y, z] := by
        rcases hs : a.shape with _ | ⟨x, _ | ⟨y, _ | ⟨z, _ | _⟩⟩⟩ <;> rw [hs] at h3 <;> simp at h3
        exact ⟨x, y, z, rfl⟩
      obtain ⟨r, hr, _⟩ := tdMean1_processPre_ok3 a x y z hxyz
      exact ⟨r.squeeze, by rw [TDExtractor.process, hr]; rfl⟩
  · intro a h
    rw [TDExtractor.process, tdMean1_processPre_rank4_err a h]
    rfl

/-- C4 amended-claim witness: each rank case at a concrete input. -/
theorem C4_rank_behaviour_witness :
    Windower.process ⟨10, 5, 2⟩ [] ⟨[1, 1, 3], []⟩ = .error windowerDimErr ∧
    Windower.process ⟨10, 5, 2⟩ [] ⟨[3, 4], []⟩ ≠ .error windowerDimErr ∧
    (∃ r, tdMean1.process ⟨[2, 3], []⟩ = .ok r) ∧
    tdMean1.process ⟨[2, 3, 4, 5], []⟩ = .error broadcastErr :=
  ⟨C4_rank_behaviour.1 ⟨10, 5, 2⟩ [] ⟨[1, 1, 3], []⟩ (by decide),
   C4_rank_behaviour.2.1 ⟨10, 5, 2⟩ [] ⟨[3, 4], []⟩ (Or.inr rfl),
   C4_rank_behaviour.2.2.1 ⟨[2, 3], []⟩ (Or.inl rfl),
   C4_rank_behaviour.2.2.2 ⟨[2, 3, 4, 5], []⟩ (by decide)⟩

theorem mkData_length (N : Nat) (f : Nat → ℚ) : (mkData N f).length = N := by
  simp [mkData]

theorem mkData_getD (N : Nat) (f : Nat → ℚ) (k : Nat) (h : k < N) :
    (mkData N f).getD k 0 = f k := by
  simp [mkData, List.getD, List.getElem?_range, h]

theorem mkData_getD2 (N : Nat) (f : Nat → ℚ) (k : Nat) (h : k < N) :
    (mkData N f)[k]?.getD 0 = f k := by
  simp [mkData, List.getElem?_range, h]

theorem mkData_congr (N : Nat) (f g : Nat → ℚ) (h : ∀ k, k < N → f k = g k) :
    mkData N f = mkData N g := by
  unfold mkData
  exact List.map_congr_left (fun k hk => h k (List.mem_range.mp hk))

/-- C7: with one vectorised mean feature and one scalar (per-window) mean
feature registered, the extractor produces identical values at every matching
(channel, window) position for the two features — the vectorised and scalar
dispatch paths agree on the mean. -/
theorem C7_dispatch_parity (c wN L : Nat) (a : NDArray) (ha : a.shape = [c, wN, L]) :
    ∃ r, tdMeanPair.process a = .ok r ∧
      ∀ ch wI, ch < c → wI < wN →
        r.data.getD ((ch * wN + wI) * 2) 0 = r.data.getD ((ch * wN + wI) * 2 + 1) 0 := by
  obtain ⟨sh, dl⟩ := a
  have ha' : sh = [c, wN, L] := ha
  subst ha'
  simp only [TDExtractor.process, TDExtractor.processPre, tdMeanPair, collectSlices,
    featureSlice, vecSlice, scalSlice, npMeanLast, List.zip_cons_cons, List.zip_nil_right]
  norm_num
  refine ⟨_, rfl, ?_⟩
  intro ch wI hch hwI
  have hj : ch * wN + wI < c * wN := by
    have h1 : (ch + 1) * wN ≤ c * wN := Nat.mul_le_mul_right wN (Nat.succ_le_of_lt hch)
    have h2 : ch * wN + wN = (ch + 1) * wN := by ring
    linarith
  set j := ch * wN + wI with hjdef
  have hj2 : j * 2 < c * wN * 2 := by omega
  have hj21 : j * 2 + 1 < c * wN * 2 := by omega
  have e0 : (j * 2) % 2 = 0 := by omega
  have e1 : (j * 2) / 2 = j := by omega
  have e2 : (j * 2 + 1) % 2 = 1 := by omega
  have e3 : (j * 2 + 1) / 2 = j := by omega
  simp only [NDArray.squeeze]
  rw [mkData_getD2 _ _ _ hj2, mkData_getD2 _ _ _ hj21, e0, e1, e2, e3]
  simp only [List.getElem?_cons_zero, List.getElem?_cons_succ, Option.getD_some]
  rw [mkData_getD2 _ _ _ hj, mkData_getD2 _ _ _ hj]
  rw [scalarCall, npMeanAll, windowOf]
  simp only [NDArray.data, NDArray.shape, List.getElem?_cons_zero, Option.getD_some,
    mkData_length]
  have hL : ([c, wN, L].getLastD 1) = L := rfl
  have hsplit : j / wN * wN + j % wN = j := by
    calc j / wN * wN + j % wN = wN * (j / wN) + j % wN := by ring
      _ = j := Nat.div_add_mod j wN
  simp only [hL, hsplit, List.prod_cons, List.prod_nil, mul_one, List.getD_cons_zero]
  congr 1
  apply congrArg List.sum
  apply mkData_congr
  intro k hk
  rw [mkData_getD _ _ _ hk]
  simp [List.getD]

/-- C7 witness: a concrete single-channel single-window input of two samples. -/
theorem C7_dispatch_parity_witness :
    ∃ r, tdMeanPair.process ⟨[1, 1, 2], [1, 3]⟩ = .ok r ∧
      ∀ ch wI, ch < 1 → wI < 1 →
        r.data.getD ((ch * 1 + wI) * 2) 0 = r.data.getD ((ch * 1 + wI) * 2 + 1) 0 :=
  C7_dispatch_parity 1 1 2 ⟨[1, 1, 2], [1, 3]⟩ rfl

/-! ### Filter cascade (C9) -/

/-- Walking the cascade from any point: if some registered filter's pad length
requirement exceeds the sample-axis length, the cascade errors (successful
`filtfilt` applications preserve the array, hence the sample-axis length). -/
theorem applyFilters_short (fs : List (List ℚ × List ℚ)) (ba : List ℚ × List ℚ) :
    ba ∈ fs → ∀ x : NDArray, x.shape.getLastD 0 ≤ 3 * max ba.1.length ba.2.length →
    ∃ e, applyFilters fs x = .error e := by
  induction fs with
  | nil => intro h; cases h
  | cons hd tl ih =>
      intro hmem x hlen
      simp only [applyFilters]
      cases hff : filtfilt hd.1 hd.2 x with
      | error e => exact ⟨e, rfl⟩
      | ok y =>
          have hyx : x = y := by
            rw [filtfilt] at hff
            split at hff
            · cases hff
            · exact Except.ok.inj hff
          subst hyx
          rcases List.mem_cons.mp hmem with rfl | hmem'
          · rw [filtfilt, if_pos hlen] at hff
            cases hff
          · exact ih hmem' x hlen

/-- C9: for every registered filter of the cascade, if the input's sample
(last) axis length does not exceed the zero-phase edge-padding minimum
`3 * max (len b) (len a)` determined by that filter's order, `process` raises
a filtering error instead of returning a degraded result. -/
theorem C9_filter_short_segment_error (f : SignalFilter) (ba : List ℚ × List ℚ)
    (x : NDArray) (hmem : ba ∈ f.filters)
    (hlen : x.shape.getLastD 0 ≤ 3 * max ba.1.length ba.2.length) :
    ∃ e, SignalFilter.process f x = .error e := by
  rw [SignalFilter.process]
  exact applyFilters_short f.filters ba hmem x hlen

/-- C9 witness: a first-order filter (`padlen = 6`) on a 2-sample signal. -/
theorem C9_filter_short_segment_error_witness :
    ∃ e, SignalFilter.process ⟨200, [([1, 1], [1])]⟩ ⟨[2], [1, 2]⟩ = .error e :=
  C9_filter_short_segment_error ⟨200, [([1, 1], [1])]⟩ ([1, 1], [1]) ⟨[2], [1, 2]⟩
    (by simp) (by decide)

/-! ### Feature registration bookkeeping (C10) -/

/-- Each registration call appends its methods to `feature_methods` and its
flags to `vec`, keeping the two lists aligned. -/
theorem applyCalls_spec (cs : List RegCall) (t : TDExtractor) :
    (applyCalls t cs).feature_methods = t.feature_methods ++ cs.flatMap RegCall.methods ∧
    (applyCalls t cs).vec = t.vec ++ cs.flatMap RegCall.flags := by
  induction cs generalizing t with
  | nil => simp [applyCalls]
  | cons c cs ih =>
      obtain ⟨v, arg⟩ := c
      cases arg with
      | inl ms =>
          cases v <;>
            simp [applyCalls, TDExtractor.add_features, TDExtractor.add_vectorised_features,
              RegCall.methods, RegCall.flags, ih]
      | inr m =>
          cases v <;>
            simp [applyCalls, TDExtractor.add_features, TDExtractor.add_vectorised_features,
              RegCall.methods, RegCall.flags, ih]

/-- Every call appends as many flags as methods, all equal to its tag. -/
theorem RegCall.flags_eq (c : RegCall) :
    RegCall.flags c = List.replicate (RegCall.methods c).length c.1 := by
  obtain ⟨v, arg⟩ := c
  cases arg with
  | inl ms => rfl
  | inr m => rfl

/-- C10: after any sequence of `add_features` / `add_vectorised_features`
calls on a fresh extractor, the flag list and the method list have equal
length and flag `i` is true exactly when method `i` came from a vectorised
registration (both lists are the concatenation, call by call, of the methods
and of the tag repeated once per method); and `process` dispatches feature `i`
on flag `i` — the whole-array call when true, the per-(channel, window) loop
when false. -/
theorem C10_registration_invariant (cs : List RegCall) :
    (applyCalls ⟨[], []⟩ cs).feature_methods = cs.flatMap RegCall.methods ∧
    (applyCalls ⟨[], []⟩ cs).vec = cs.flatMap RegCall.flags ∧
    (applyCalls ⟨[], []⟩ cs).vec.length =
      (applyCalls ⟨[], []⟩ cs).feature_methods.length ∧
    (∀ c : RegCall, RegCall.flags c = List.replicate (RegCall.methods c).length c.1) ∧
    (∀ (b : NDArray) (d0 d1 : Nat) (m : FeatureFn),
        featureSlice b d0 d1 m true = vecSlice b d0 d1 m) ∧
    (∀ (b : NDArray) (d0 d1 : Nat) (m : FeatureFn),
        featureSlice b d0 d1 m false = scalSlice b d0 d1 m) := by
  obtain ⟨hm, hv⟩ := applyCalls_spec cs ⟨[], []⟩
  have hm' : (applyCalls ⟨[], []⟩ cs).feature_methods = cs.flatMap RegCall.methods := by
    simpa using hm
  have hv' : (applyCalls ⟨[], []⟩ cs).vec = cs.flatMap RegCall.flags := by
    simpa using hv
  refine ⟨hm', hv', ?_, RegCall.flags_eq, fun b d0 d1 m => rfl, fun b d0 d1 m => rfl⟩
  rw [hm', hv', List.length_flatMap, List.length_flatMap]
  apply congrArg List.sum
  apply List.map_congr_left
  intro c _
  simp [Function.comp, RegCall.flags_eq c]

example : arangeTo 51 10 = [0, 10, 20, 30, 40, 50] := by decide

example : Windower.setup ⟨100, 50, 40⟩ =
    .ok [(0, 50), (10, 60), (20, 70), (30, 80), (40, 90), (50, 100)] := by decide

example : Windower.setup ⟨100, 50, 50⟩ = .error windowerCfgErr := by decide

example : (Windower.process ⟨10, 5, 2⟩ [(0, 5)] ⟨[2, 3, 10], []⟩) =
    .error windowerDimErr := by decide
